import Mathlib

/-!
Shallow embedding of the SuperDashboard workflow engine core
(`src/plugins/workflow-engine/backend/executor.py` and
`src/plugins/workflow-engine/backend/scheduler.py`) together with proofs
about its execution, variable-resolution, condition-evaluation, transform
and scheduling behaviour.

Modelling conventions:
- Python/JSON values are modelled by the inductive type `Value`; Python
  `None` is `Value.null`, numbers are modelled by `Rat` (exact arithmetic
  in place of machine floats), dictionaries are insertion-ordered
  association lists with arbitrary `Value` keys, as in Python.
- Wall-clock timestamps (`datetime.utcnow().isoformat()`) are supplied by
  the environment field `Env.now`.
- The outside world (HTTP calls made by plugin-action nodes, and the host
  `exec` facility invoked by code-based transforms) is modelled by oracle
  functions in `Env`; every interaction with it is additionally recorded
  in an `Effect` trace so that theorems can talk about what was invoked.
- The recursive graph walk of `_execute_node_chain` is modelled with an
  explicit recursion budget (`fuel`); exhausting every finite budget is
  the step-indexed rendering of nontermination / unbounded recursion.
-/

/-- Python/JSON-like runtime values manipulated by the workflow engine. -/
inductive Value where
  | null : Value
  | bool (b : Bool) : Value
  | num (q : Rat) : Value
  | str (s : String) : Value
  | list (xs : List Value) : Value
  | dict (kvs : List (Value × Value)) : Value
deriving Repr

mutual

/-- Structural equality on values, modelling Python `==` on the shapes the
engine actually compares (dictionaries are compared entry-by-entry in
order; Python compares them as unordered maps, which coincides on the
insertion-ordered dictionaries produced here). -/
def valueBeq : Value → Value → Bool
  | .null, .null => true
  | .bool a, .bool b => a == b
  | .num a, .num b => a == b
  | .str a, .str b => a == b
  | .list xs, .list ys => valueListBeq xs ys
  | .dict xs, .dict ys => valueDictBeq xs ys
  | _, _ => false

/-- Elementwise equality of value lists. -/
def valueListBeq : List Value → List Value → Bool
  | [], [] => true
  | x :: xs, y :: ys => valueBeq x y && valueListBeq xs ys
  | _, _ => false

/-- Entrywise equality of association lists. -/
def valueDictBeq : List (Value × Value) → List (Value × Value) → Bool
  | [], [] => true
  | (k1, v1) :: xs, (k2, v2) :: ys => valueBeq k1 k2 && valueBeq v1 v2 && valueDictBeq xs ys
  | _, _ => false

end

/-- Python truthiness: `None`, `False`, `0`, `""`, `[]` and `{}` are falsy. -/
def pyTruthy : Value → Bool
  | .null => false
  | .bool b => b
  | .num q => q != 0
  | .str s => s != ""
  | .list xs => !xs.isEmpty
  | .dict kvs => !kvs.isEmpty

/-- Characters-level check that `pat` occurs as a prefix; wrapper over lists
so that every string operation in this file reduces well in the kernel. -/
def strStartsWith (s pat : String) : Bool :=
  pat.data.isPrefixOf s.data

/-- Check that `pat` occurs as a suffix of `s`. -/
def strEndsWith (s pat : String) : Bool :=
  pat.data.isSuffixOf s.data

/-- Drop the first `n` characters of a string (Python `s[n:]`). -/
def strDrop (s : String) (n : Nat) : String :=
  ⟨s.data.drop n⟩

/-- Drop the last `n` characters of a string (Python `s[:-n]`). -/
def strDropRight (s : String) (n : Nat) : String :=
  ⟨s.data.take (s.data.length - n)⟩

/-- Substring test, modelling Python `needle in hay`. -/
def strIn (needle hay : String) : Bool :=
  go needle.data hay.data where
  go (n : List Char) : List Char → Bool
    | [] => n.isEmpty
    | c :: t => n.isPrefixOf (c :: t) || go n t

/-- Strip leading and trailing whitespace (Python `str.strip()`). -/
def pyStrip (s : String) : String :=
  ⟨((s.data.dropWhile Char.isWhitespace).reverse.dropWhile Char.isWhitespace).reverse⟩

/-- Split a character list at every occurrence of `sep` (Python
`str.split(sep)` for a one-character separator). -/
def splitCharsOn (sep : Char) : List Char → List (List Char)
  | [] => [[]]
  | c :: t =>
      match splitCharsOn sep t with
      | [] => [[]]
      | h :: r => if c == sep then [] :: h :: r else (c :: h) :: r

/-- Python `path.split('.')`. -/
def pySplitDot (s : String) : List String :=
  (splitCharsOn '.' s.data).map (fun cs => ⟨cs⟩)

/-- Python `s.split()`: split on whitespace runs, discarding empties. -/
def pySplitWs (s : String) : List String :=
  ((s.data.splitOnP Char.isWhitespace).map (fun t => String.mk t)).filter
    (fun t => t != "")

mutual

/-- Python `repr` of a value, approximated: container elements are rendered
recursively with strings quoted; rationals with denominator 1 render as
integers (non-integral rationals render as fractions, an approximation of
float formatting that no theorem below depends on). -/
def pyRepr : Value → String
  | .null => "None"
  | .bool true => "True"
  | .bool false => "False"
  | .num q => if q.den == 1 then toString q.num else toString q
  | .str s => "'" ++ s ++ "'"
  | .list xs => "[" ++ pyReprList xs ++ "]"
  | .dict kvs => "\x7b" ++ pyReprDict kvs ++ "\x7d"

/-- Comma-separated rendering of list elements. -/
def pyReprList : List Value → String
  | [] => ""
  | [v] => pyRepr v
  | v :: t => pyRepr v ++ ", " ++ pyReprList t

/-- Comma-separated rendering of dictionary entries. -/
def pyReprDict : List (Value × Value) → String
  | [] => ""
  | [(k, v)] => pyRepr k ++ ": " ++ pyRepr v
  | (k, v) :: t => pyRepr k ++ ": " ++ pyRepr v ++ ", " ++ pyReprDict t

end

/-- Python `str(v)`: identity on strings, `repr`-like elsewhere. -/
def pyStr : Value → String
  | .str s => s
  | v => pyRepr v

/-- Python `len(v)`: defined for strings, lists and dictionaries; a
`TypeError` otherwise (exception text modelled as a constant). -/
def pyLen : Value → Except String Nat
  | .str s => .ok s.length
  | .list xs => .ok xs.length
  | .dict kvs => .ok kvs.length
  | _ => .error "TypeError: object has no len()"

/-- Numeric value of a digit run. -/
def digitsToNat (cs : List Char) : Nat :=
  cs.foldl (fun a c => a * 10 + (c.toNat - 48)) 0

/-- Split a character list at the first `e`/`E`, keeping both halves. -/
def splitAtExpChar : List Char → List Char × Option (List Char)
  | [] => ([], none)
  | c :: t =>
      if c == 'e' || c == 'E' then ([], some t)
      else
        match splitAtExpChar t with
        | (m, e) => (c :: m, e)

/-- Split a character list at the first `.`, keeping both halves. -/
def splitAtDotChar : List Char → List Char × Option (List Char)
  | [] => ([], none)
  | c :: t =>
      if c == '.' then ([], some t)
      else
        match splitAtDotChar t with
        | (m, e) => (c :: m, e)

/-- Consume an optional leading sign. -/
def takeSign : List Char → Int × List Char
  | '+' :: t => (1, t)
  | '-' :: t => (-1, t)
  | cs => (1, cs)

/-- Parse the mantissa part of a float literal: optional sign, digits,
optional dot and fraction digits, at least one digit overall. -/
def parseMantissa (cs : List Char) : Option Rat :=
  match takeSign cs with
  | (sgn, cs) =>
      match splitAtDotChar cs with
      | (ip, fpOpt) =>
          let fp := fpOpt.getD []
          if ip.all Char.isDigit && fp.all Char.isDigit && (ip ≠ [] || fp ≠ []) then
            some ((sgn : Rat) *
              ((digitsToNat ip : Rat) + (digitsToNat fp : Rat) / ((10 : Rat) ^ fp.length)))
          else none

/-- Parse an exponent part: optional sign then at least one digit. -/
def parseExpPart (cs : List Char) : Option Int :=
  match takeSign cs with
  | (sgn, cs) =>
      if cs ≠ [] && cs.all Char.isDigit then some (sgn * (digitsToNat cs : Int)) else none

/-- Python `float(s)` on strings: strip whitespace, then a signed decimal
literal with optional fraction and exponent (special forms such as `inf`,
`nan` or underscore separators are outside the modelled grammar). -/
def pyFloatOfString (s : String) : Option Rat :=
  match splitAtExpChar (pyStrip s).data with
  | (m, none) => parseMantissa m
  | (m, some e) =>
      match parseMantissa m, parseExpPart e with
      | some q, some ex => some (q * (10 : Rat) ^ ex)
      | _, _ => none

/-- Python `float(v)`: numbers and booleans convert, strings are parsed,
everything else raises (exception text modelled as a constant). -/
def pyFloatE : Value → Except String Rat
  | .num q => .ok q
  | .bool b => .ok (if b then 1 else 0)
  | .str s =>
      match pyFloatOfString s with
      | some q => .ok q
      | none => .error "could not convert string to float"
  | _ => .error "float() argument must be a string or a real number"

/-- The executor's `execution_context` dictionary, mapping node ids (and
transform-assigned variable names) to values. -/
abbrev Ctx := List (Value × Value)

/-- Python `d.get(k)` on a dictionary: the stored value, or `None`. -/
def pyDictGet (kvs : List (Value × Value)) (k : Value) : Value :=
  match kvs.find? (fun kv => valueBeq kv.1 k) with
  | some kv => kv.2
  | none => .null

/-- Key lookup distinguishing a missing key from a stored `None`. -/
def pyDictLookup (kvs : List (Value × Value)) (k : Value) : Option Value :=
  (kvs.find? (fun kv => valueBeq kv.1 k)).map (fun kv => kv.2)

/-- Python `d[k] = v`: update in place if the key exists, else append
(insertion order is preserved, as for Python dictionaries). -/
def pyDictSet (kvs : List (Value × Value)) (k v : Value) : List (Value × Value) :=
  match kvs with
  | [] => [(k, v)]
  | (k0, v0) :: t => if valueBeq k0 k then (k0, v) :: t else (k0, v0) :: pyDictSet t k v

/-- Lookup of a string-named key in a node `config`/`data` dictionary. -/
def cfgLookup (config : List (Value × Value)) (key : String) : Option Value :=
  pyDictLookup config (.str key)

/-- Python `config.get(key, default)`. -/
def cfgGetD (config : List (Value × Value)) (key : String) (d : Value) : Value :=
  (cfgLookup config key).getD d

/-- Recognise a string of the bare placeholder form, as tested by
`value.startswith('\x7b\x7b') and value.endswith('\x7d\x7d')` in
`_replace_variables`, returning the `value[2:-2]` slice. -/
def bareForm (s : String) : Option String :=
  if strStartsWith s "\x7b\x7b" && strEndsWith s "\x7d\x7d" then
    some (strDropRight (strDrop s 2) 2)
  else none

/-- Loop body of `_get_context_value`: walk the remaining dot-path segments,
descending through dictionaries, yielding `None` as soon as a segment is
missing or the current value is not a dictionary. -/
def walkPath : List String → Value → Value
  | [], v => v
  | part :: rest, .dict kvs => walkPath rest (pyDictGet kvs (.str part))
  | _ :: _, _ => .null

/-- `_get_context_value`: `path.split('.')` walked against the execution
context dictionary. -/
def getContextValue (ctx : Ctx) (path : String) : Value :=
  walkPath (pySplitDot path) (.dict ctx)

mutual

/-- `_replace_variables`: a bare placeholder string is replaced by the
context lookup of its stripped inner path; any other string is returned
unchanged (no partial interpolation); dictionaries and lists are resolved
element-wise (dictionary keys are not resolved); other values pass
through. -/
def replaceVariables (ctx : Ctx) : Value → Value
  | .str s =>
      match bareForm s with
      | some p => getContextValue ctx (pyStrip p)
      | none => .str s
  | .dict kvs => .dict (replaceVariablesDict ctx kvs)
  | .list xs => .list (replaceVariablesList ctx xs)
  | v => v

/-- Value-wise resolution of a dictionary's entries. -/
def replaceVariablesDict (ctx : Ctx) : List (Value × Value) → List (Value × Value)
  | [] => []
  | (k, v) :: t => (k, replaceVariables ctx v) :: replaceVariablesDict ctx t

/-- Element-wise resolution of a list. -/
def replaceVariablesList (ctx : Ctx) : List Value → List Value
  | [] => []
  | v :: t => replaceVariables ctx v :: replaceVariablesList ctx t

end

/-- A log entry as appended by the executor: timestamp, message, level. -/
structure LogEntry where
  timestamp : String
  message : String
  level : String
deriving Repr, DecidableEq

/-- Externally visible actions of one run: HTTP dispatches, sleeps, and
invocations of the host `exec` facility on transform code. -/
inductive Effect where
  | httpCall (method url : String) (params : Value)
  | slept (seconds : Value)
  | hostExec (code : String)
deriving Repr

/-- Execution environment: the `base_url` constructor argument of
`WorkflowExecutor`, the wall clock, and oracles for the outside world
(HTTP responses with status code and decoded JSON body, and the result of
handing code to the host `exec`). -/
structure Env where
  base_url : String
  now : String
  http : String → String → Value → Except String (Nat × Value)
  execHost : String → Value → Ctx → Except String Value

/-- Build a log entry with the environment's current timestamp. -/
def logE (env : Env) (msg level : String) : LogEntry :=
  ⟨env.now, msg, level⟩

/-- Outcome of a handler or walk step: a value, a raised exception, or an
exhausted recursion budget (the step-indexed stand-in for the source's
unbounded recursion not returning). -/
inductive RunResult (α : Type) where
  | ok (a : α)
  | err (e : String)
  | fuelOut
deriving Repr

/-- Result of one handler or walk step: the (possibly mutated) execution
context, the log entries and effects it appended, and its outcome. -/
structure StepResult (α : Type) where
  ctx : Ctx
  logs : List LogEntry
  effects : List Effect
  res : RunResult α

/-- `_execute_condition`: `conditionType` defaults to `'always'`, which
short-circuits to true; otherwise both operands are variable-resolved and
the operator (defaulting to `'equals'`) is dispatched; numeric comparisons
go through Python `float()` and propagate its exceptions; an unknown
operator yields false. -/
def executeCondition (ctx : Ctx) (config : List (Value × Value)) : Except String Bool :=
  let conditionType := cfgGetD config "conditionType" (.str "always")
  if valueBeq conditionType (.str "always") then .ok true
  else
    let leftValue := replaceVariables ctx (cfgGetD config "leftValue" .null)
    let rightValue := replaceVariables ctx (cfgGetD config "rightValue" .null)
    let operator := cfgGetD config "operator" (.str "equals")
    if valueBeq operator (.str "equals") then .ok (valueBeq leftValue rightValue)
    else if valueBeq operator (.str "not_equals") then .ok (!valueBeq leftValue rightValue)
    else if valueBeq operator (.str "contains") then
      match rightValue with
      | .str r => .ok (strIn r (pyStr leftValue))
      | _ => .error "TypeError: argument is not a string"
    else if valueBeq operator (.str "greater_than") then
      match pyFloatE leftValue with
      | .error e => .error e
      | .ok l =>
          match pyFloatE rightValue with
          | .error e => .error e
          | .ok r => .ok (decide (l > r))
    else if valueBeq operator (.str "less_than") then
      match pyFloatE leftValue with
      | .error e => .error e
      | .ok l =>
          match pyFloatE rightValue with
          | .error e => .error e
          | .ok r => .ok (decide (l < r))
    else .ok false

/-- Left-to-right, non-overlapping replacement of `pat` by `rep`, recursing
on an explicit character budget (instantiated with the list's length, which
always suffices because every step consumes at least one character). -/
def replaceCharsAux (pat rep : List Char) : Nat → List Char → List Char
  | _, [] => []
  | 0, cs => cs
  | Nat.succ f, c :: cs =>
      if !pat.isEmpty && pat.isPrefixOf (c :: cs) then
        rep ++ replaceCharsAux pat rep f ((c :: cs).drop pat.length)
      else
        c :: replaceCharsAux pat rep f cs

/-- The literal `str.replace` rewrite `_evaluate_simple_javascript` applies
to the transform code. -/
def replaceChars (pat rep cs : List Char) : List Char :=
  replaceCharsAux pat rep cs.length cs

/-- String-level wrapper for `replaceChars` (Python `s.replace(pat, rep)`). -/
def pyReplace (s pat rep : String) : String :=
  ⟨replaceChars pat.data rep.data s.data⟩

/-- The JS-to-Python textual rewrites of `_evaluate_simple_javascript`. -/
def jsToPython (code : String) : String :=
  let s1 := pyReplace code "const " ""
  let s2 := pyReplace s1 "let " ""
  let s3 := pyReplace s2 "var " ""
  let s4 := pyReplace s3 "===" "=="
  pyReplace s4 "!==" "!="

/-- The `input` binding of a code transform: the value of the last context
key different from the literal string `'trigger'`, or `None`. -/
def findInputData (ctx : Ctx) : Value :=
  match ctx.reverse.find? (fun kv => !valueBeq kv.1 (.str "trigger")) with
  | some kv => kv.2
  | none => .null

/-- `_execute_javascript_transform` composed with
`_evaluate_simple_javascript`: after the length log, the rewritten
workflow-authored text is handed to the host `exec` facility (the
`Env.execHost` oracle), recorded as an `Effect.hostExec`; failures are
logged and re-raised. -/
def executeJavascriptTransform (env : Env) (config : List (Value × Value)) (ctx : Ctx) :
    StepResult Value :=
  let code := cfgGetD config "code" (.str "")
  if !pyTruthy code then ⟨ctx, [], [], .ok .null⟩
  else
    match pyLen code with
    | .error e => ⟨ctx, [], [], .err e⟩
    | .ok n =>
        let lenLog :=
          logE env ("Executing transform code (length: " ++ toString n ++ " chars)") "info"
        match code with
        | .str codeStr =>
            let inputData := findInputData ctx
            let pythonCode := jsToPython codeStr
            match env.execHost pythonCode inputData ctx with
            | .ok v =>
                ⟨ctx, [lenLog, logE env "Transform code executed successfully" "info"],
                 [.hostExec pythonCode], .ok v⟩
            | .error e =>
                ⟨ctx, [lenLog, logE env ("Error executing transform code: " ++ e) "error"],
                 [.hostExec pythonCode], .err e⟩
        | _ =>
            let e := "AttributeError: object has no attribute replace"
            ⟨ctx, [lenLog, logE env ("Error executing transform code: " ++ e) "error"], [], .err e⟩

/-- The `merged.update(source_value)` accumulation of the merge transform. -/
def mergeUpdate (merged : List (Value × Value)) : List (Value × Value) → List (Value × Value)
  | [] => merged
  | (k, v) :: t => mergeUpdate (pyDictSet merged k v) t

/-- The `for source in sources` loop of the merge transform: resolve each
source and shallow-merge it when it is a dictionary. -/
def mergeSources (ctx : Ctx) : List Value → List (Value × Value) → List (Value × Value)
  | [], merged => merged
  | s :: rest, merged =>
      match replaceVariables ctx s with
      | .dict kvs => mergeSources ctx rest (mergeUpdate merged kvs)
      | _ => mergeSources ctx rest merged

/-- The legacy (`transformType`) arm of `_execute_transform`: `set` assigns
a resolved value into the execution context and returns the singleton
dictionary; `merge` shallow-merges the resolved dictionary sources; any
other shape returns `None`. -/
def executeLegacyTransform (config : List (Value × Value)) (ctx : Ctx) : StepResult Value :=
  let transformType := cfgGetD config "transformType" (.str "set")
  if valueBeq transformType (.str "set") then
    let variableName := cfgGetD config "variable" .null
    let value := replaceVariables ctx (cfgGetD config "value" .null)
    ⟨pyDictSet ctx variableName value, [], [], .ok (.dict [(variableName, value)])⟩
  else if valueBeq transformType (.str "merge") then
    match cfgGetD config "sources" (.list []) with
    | .list xs => ⟨ctx, [], [], .ok (.dict (mergeSources ctx xs []))⟩
    | .dict kvs => ⟨ctx, [], [], .ok (.dict (mergeSources ctx (kvs.map (fun kv => kv.1)) []))⟩
    | _ => ⟨ctx, [], [], .err "TypeError: object is not iterable"⟩
  else ⟨ctx, [], [], .ok .null⟩

/-- `_execute_transform`: a truthy `code` entry dispatches to the
code-based transform, otherwise the legacy `transformType` arm runs. -/
def executeTransform (env : Env) (config : List (Value × Value)) (ctx : Ctx) :
    StepResult Value :=
  match cfgLookup config "code" with
  | some codeV =>
      if pyTruthy codeV then executeJavascriptTransform env config ctx
      else executeLegacyTransform config ctx
  | none => executeLegacyTransform config ctx

/-- A workflow node as the executor reads it: `id`, `type`, and the
`data` config dictionary (`node.get('data', \x7b\x7d)`). -/
structure Node where
  id : String
  type : String
  data : List (Value × Value)

/-- A workflow edge: `source`, `target`, optional `condition`. -/
structure Edge where
  source : String
  target : String
  condition : Option Value

/-- Numeric-like values accepted by `asyncio.sleep`. -/
def pyNumeric : Value → Bool
  | .num _ => true
  | .bool _ => true
  | _ => false

/-- `_execute_plugin_action`: resolve the parameters (or build the AI
prompt payload), assemble the URL, dispatch the HTTP method through the
`Env.http` oracle (DELETE sends no body; an unrecognised method raises
before any network call), and return the decoded response. -/
def executePluginAction (env : Env) (node : Node) (ctx : Ctx) : StepResult Value :=
  let config := node.data
  let pluginName := cfgGetD config "plugin" .null
  let action := cfgGetD config "action" .null
  let method := cfgGetD config "method" (.str "GET")
  let actionId := cfgGetD config "actionId" .null
  let params0 := cfgGetD config "parameters" (.dict [])
  let promptBranch : Except String (Value × List LogEntry) :=
    if valueBeq actionId (.str "ask") && (cfgLookup config "promptTemplate").isSome then
      let prompt := cfgGetD config "promptTemplate" (.str "")
      let processed := replaceVariables ctx prompt
      match pyLen processed with
      | .error e => .error e
      | .ok n =>
          .ok (.dict [(.str "messages",
                 .list [.dict [(.str "role", .str "user"), (.str "content", processed)]])],
               [logE env ("Using prompt template with processed content (length: " ++
                  toString n ++ " chars)") "info"])
    else .ok (replaceVariables ctx params0, [])
  match promptBranch with
  | .error e => ⟨ctx, [], [], .err e⟩
  | .ok (params, logs1) =>
      let url := env.base_url ++ "/plugins/" ++ pyStr pluginName ++ pyStr action
      let callLog := logE env ("Calling plugin API: " ++ pyStr method ++ " " ++ url) "info"
      match method with
      | .str m =>
          let mu := m.toUpper
          if mu == "GET" || mu == "POST" || mu == "PUT" || mu == "DELETE" then
            let body := if mu == "DELETE" then .null else params
            match env.http mu url body with
            | .ok (status, decoded) =>
                ⟨ctx,
                 logs1 ++ [callLog, logE env ("Plugin API response: " ++ toString status) "info"],
                 [.httpCall mu url body], .ok decoded⟩
            | .error e => ⟨ctx, logs1 ++ [callLog], [.httpCall mu url body], .err e⟩
          else ⟨ctx, logs1 ++ [callLog], [], .err ("Unsupported HTTP method: " ++ m)⟩
      | _ =>
          ⟨ctx, logs1 ++ [callLog], [], .err "AttributeError: object has no attribute upper"⟩

/-- The kind dispatch of `_execute_node` (inside its `try`): trigger nodes
pass through, plugin-action / condition / delay / transform dispatch to
their handlers, and an unrecognised kind logs a warning and returns `None`
without failing. -/
def executeNodeInner (env : Env) (node : Node) (ctx : Ctx) : StepResult Value :=
  if node.type == "trigger" then
    ⟨ctx, [], [], .ok (.dict [(.str "triggered", .bool true), (.str "timestamp", .str env.now)])⟩
  else if node.type == "plugin-action" then
    executePluginAction env node ctx
  else if node.type == "condition" then
    match executeCondition ctx node.data with
    | .ok b => ⟨ctx, [], [], .ok (.bool b)⟩
    | .error e => ⟨ctx, [], [], .err e⟩
  else if node.type == "delay" then
    let delaySeconds := cfgGetD node.data "delay" (.num 1)
    let dLog := logE env ("Delaying execution for " ++ pyStr delaySeconds ++ " seconds") "info"
    if pyNumeric delaySeconds then
      ⟨ctx, [dLog], [.slept delaySeconds], .ok (.dict [(.str "delayed", delaySeconds)])⟩
    else
      ⟨ctx, [dLog], [], .err "TypeError: argument must be a real number"⟩
  else if node.type == "transform" then
    executeTransform env node.data ctx
  else
    ⟨ctx, [logE env ("Unknown node type: " ++ node.type) "warning"], [], .ok .null⟩

/-- `_execute_node`: the kind dispatch wrapped in the `try`/`except` that
logs any handler error at `error` level and re-raises it. -/
def executeNode (env : Env) (node : Node) (ctx : Ctx) : StepResult Value :=
  let r := executeNodeInner env node ctx
  match r.res with
  | .err e =>
      { r with logs := r.logs ++ [logE env ("Error executing node " ++ node.id ++ ": " ++ e) "error"] }
  | _ => r

/-- `_evaluate_edge_condition`: a missing or falsy condition always passes;
with a condition present, a boolean node result decides, anything else
passes. -/
def evaluateEdgeCondition (edge : Edge) (nodeResult : Value) : Bool :=
  let condition := edge.condition.getD .null
  if !pyTruthy condition then true
  else
    match nodeResult with
    | .bool b => b
    | _ => true

/-- The `for edge in outgoing_edges` loop of `_execute_node_chain`:
resolve each target node, check the edge condition against the source
node's result, recurse into targets that fire (the recursive walk is the
`walk` parameter, instantiated at the next recursion depth), and collect
their results in order; a raised error aborts the loop. -/
def chainEdges (allNodes : List Node) (walk : Node → Ctx → StepResult Value) :
    Value → List Edge → Ctx → StepResult (List Value)
  | _, [], ctx => ⟨ctx, [], [], .ok []⟩
  | nodeResult, e :: rest, ctx =>
      match allNodes.find? (fun n => n.id == e.target) with
      | none => chainEdges allNodes walk nodeResult rest ctx
      | some targetNode =>
          if evaluateEdgeCondition e nodeResult then
            let r := walk targetNode ctx
            match r.res with
            | .ok v =>
                let r2 := chainEdges allNodes walk nodeResult rest r.ctx
                ⟨r2.ctx, r.logs ++ r2.logs, r.effects ++ r2.effects,
                 match r2.res with
                 | .ok vs => .ok (v :: vs)
                 | .err e2 => .err e2
                 | .fuelOut => .fuelOut⟩
            | .err e2 => ⟨r.ctx, r.logs, r.effects, .err e2⟩
            | .fuelOut => ⟨r.ctx, r.logs, r.effects, .fuelOut⟩
          else chainEdges allNodes walk nodeResult rest ctx

/-- `_execute_node_chain`: log the visit, execute the node, store its
result in the execution context under the node id, then follow every
outgoing edge whose condition holds and recurse into its target; the
result is the last recursive result, or the node's own result when no edge
fired. `fuel` bounds the recursion depth — the source has no such bound
and no visited set. -/
def executeNodeChain (env : Env) (allNodes : List Node) (edges : List Edge) :
    Nat → Node → Ctx → StepResult Value
  | 0, _, ctx => ⟨ctx, [], [], .fuelOut⟩
  | Nat.succ fuel, node, ctx =>
      let entry := logE env ("Executing node: " ++ node.id ++ " (type: " ++ node.type ++ ")") "info"
      let r := executeNode env node ctx
      match r.res with
      | .err e => ⟨r.ctx, entry :: r.logs, r.effects, .err e⟩
      | .fuelOut => ⟨r.ctx, entry :: r.logs, r.effects, .fuelOut⟩
      | .ok nodeResult =>
          let ctx1 := pyDictSet r.ctx (.str node.id) nodeResult
          let outgoing := edges.filter (fun e => e.source == node.id)
          let rest :=
            chainEdges allNodes (fun n c => executeNodeChain env allNodes edges fuel n c)
              nodeResult outgoing ctx1
          ⟨rest.ctx, entry :: (r.logs ++ rest.logs), r.effects ++ rest.effects,
           match rest.res with
           | .ok results =>
               .ok (match results.getLast? with
                    | some v => v
                    | none => nodeResult)
           | .err e => .err e
           | .fuelOut => .fuelOut⟩

/-- The `for trigger_node in trigger_nodes` loop of `execute_workflow`:
each iteration appends the start log and walks the chain; the `result`
variable keeps the last iteration's value. -/
def runTriggers (env : Env) (nodes : List Node) (edges : List Edge) (fuel : Nat) :
    List Node → Ctx → List LogEntry → List Effect → Value →
    Ctx × List LogEntry × List Effect × RunResult Value
  | [], ctx, logs, effs, last => (ctx, logs, effs, .ok last)
  | t :: rest, ctx, logs, effs, _last =>
      let startLog := logE env ("Starting workflow execution from node: " ++ t.id) "info"
      let r := executeNodeChain env nodes edges fuel t ctx
      match r.res with
      | .ok v =>
          runTriggers env nodes edges fuel rest r.ctx (logs ++ startLog :: r.logs)
            (effs ++ r.effects) v
      | .err e => (r.ctx, logs ++ startLog :: r.logs, effs ++ r.effects, .err e)
      | .fuelOut => (r.ctx, logs ++ startLog :: r.logs, effs ++ r.effects, .fuelOut)

/-- The dictionary returned by `execute_workflow`: a completed run carries
the walk's value and no error; a failed run carries `result = None`
(represented as `none`) and, when it failed through the `except` arm, the
error message. -/
structure WorkflowResult where
  status : String
  logs : List LogEntry
  result : Option Value
  error : Option String
deriving Repr

/-- `execute_workflow` against a given starting execution context: select
the trigger nodes (`type == 'trigger'`), fall back to the first node when
there are none, fail without raising when the node list is empty, walk the
chain from each trigger, and wrap up as a completed or failed execution.
`none` models the recursion budget running out, i.e. the source's
unbounded recursion never returning. The final context is also returned,
because the executor object retains it across calls. -/
def executeWorkflowRun (env : Env) (fuel : Nat) (ctx0 : Ctx) (nodes : List Node)
    (edges : List Edge) (_triggerType : String) :
    Option (WorkflowResult × Ctx × List Effect) :=
  let triggerNodes := nodes.filter (fun n => n.type == "trigger")
  let triggerNodes := if triggerNodes.isEmpty then nodes.take 1 else triggerNodes
  match triggerNodes with
  | [] =>
      some ({ status := "failed",
              logs := [logE env "No trigger node found" "error"],
              result := none, error := none }, ctx0, [])
  | _ =>
      match runTriggers env nodes edges fuel triggerNodes ctx0 [] [] (.dict []) with
      | (ctx, logs, effs, .ok v) =>
          some ({ status := "completed", logs := logs, result := some v, error := none },
                ctx, effs)
      | (ctx, logs, effs, .err e) =>
          some ({ status := "failed",
                  logs := logs ++ [logE env ("Workflow execution failed: " ++ e) "error"],
                  result := none, error := some e }, ctx, effs)
      | (_, _, _, .fuelOut) => none

/-- The `WorkflowExecutor` object: besides `base_url` (carried in `Env`),
its only state is the `execution_context` dictionary created once in
`__init__` — and never reset between `execute_workflow` calls. -/
structure WorkflowExecutor where
  execution_context : Ctx

/-- A freshly constructed executor (`WorkflowExecutor()`). -/
def WorkflowExecutor.fresh : WorkflowExecutor := ⟨[]⟩

/-- The `execute_workflow` method: runs against the object's retained
context and stores the mutated context back on the object. -/
def WorkflowExecutor.executeWorkflow (self : WorkflowExecutor) (env : Env) (fuel : Nat)
    (nodes : List Node) (edges : List Edge) (triggerType : String) :
    Option (WorkflowResult × WorkflowExecutor × List Effect) :=
  match executeWorkflowRun env fuel self.execution_context nodes edges triggerType with
  | none => none
  | some (r, ctx, effs) => some (r, ⟨ctx⟩, effs)

/-- A registered APScheduler job: its job id, the five fields of its
`CronTrigger`, and the `workflow_id` keyword argument for the callback. -/
structure Job where
  id : String
  minute : String
  hour : String
  day : String
  month : String
  day_of_week : String
  workflow_id : String
deriving Repr, DecidableEq

/-- Scheduler state: the APScheduler job store (`add_job` with
`replace_existing=True` keeps at most one job per job id) plus the
`scheduled_workflows` map from workflow id to job id. -/
structure WorkflowScheduler where
  jobs : List Job
  scheduled_workflows : List (String × String)
deriving Repr, DecidableEq

/-- A freshly constructed scheduler (`WorkflowScheduler()`). -/
def WorkflowScheduler.fresh : WorkflowScheduler := ⟨[], []⟩

/-- APScheduler `add_job(..., replace_existing=True)`: the job store keys
jobs by id, so an existing job with the same id is replaced. -/
def addJobReplacing (jobs : List Job) (j : Job) : List Job :=
  jobs.filter (fun x => x.id != j.id) ++ [j]

/-- Insertion-ordered update of the workflow-id → job-id map. -/
def mapSet (m : List (String × String)) (k v : String) : List (String × String) :=
  match m with
  | [] => [(k, v)]
  | (k0, v0) :: t => if k0 == k then (k0, v) :: t else (k0, v0) :: mapSet t k v

/-- `unschedule_workflow`: look up the job id; when the store still has the
job, remove it and delete the map entry; when `remove_job` raises (job
unknown), the failure is logged as a warning and the map entry survives.
Unscheduling an unknown workflow id is a no-op. -/
def unschedule_workflow (st : WorkflowScheduler) (workflowId : String) : WorkflowScheduler :=
  match st.scheduled_workflows.lookup workflowId with
  | none => st
  | some jobId =>
      if jobId == "" then st
      else if st.jobs.any (fun j => j.id == jobId) then
        { jobs := st.jobs.filter (fun j => j.id != jobId),
          scheduled_workflows := st.scheduled_workflows.filter (fun p => p.1 != workflowId) }
      else st

/-- `schedule_workflow`: drop any prior registration for the workflow id,
split the cron expression on whitespace and reject it synchronously unless
it has exactly five fields, then register the job under the deterministic
job id `workflow_<id>` and record the mapping. -/
def schedule_workflow (st : WorkflowScheduler) (workflowId cronExpression : String) :
    Except String WorkflowScheduler :=
  let st1 := unschedule_workflow st workflowId
  match pySplitWs cronExpression with
  | [minute, hour, day, month, dayOfWeek] =>
      let jobId := "workflow_" ++ workflowId
      let job : Job := ⟨jobId, minute, hour, day, month, dayOfWeek, workflowId⟩
      .ok { jobs := addJobReplacing st1.jobs job,
            scheduled_workflows := mapSet st1.scheduled_workflows workflowId jobId }
  | _ => .error ("Invalid cron expression: " ++ cronExpression ++ ". Expected 5 parts.")

mutual

/-- Reflexivity of the modelled Python equality. -/
theorem valueBeq_refl : (v : Value) → valueBeq v v = true
  | .null => rfl
  | .bool b => by simp [valueBeq]
  | .num q => by simp [valueBeq]
  | .str s => by simp [valueBeq]
  | .list xs => by simp [valueBeq, valueListBeq_refl xs]
  | .dict kvs => by simp [valueBeq, valueDictBeq_refl kvs]

/-- Reflexivity of value-list equality. -/
theorem valueListBeq_refl : (xs : List Value) → valueListBeq xs xs = true
  | [] => rfl
  | x :: xs => by simp [valueListBeq, valueBeq_refl x, valueListBeq_refl xs]

/-- Reflexivity of association-list equality. -/
theorem valueDictBeq_refl : (kvs : List (Value × Value)) → valueDictBeq kvs kvs = true
  | [] => rfl
  | (k, v) :: kvs => by
      simp [valueDictBeq, valueBeq_refl k, valueBeq_refl v, valueDictBeq_refl kvs]

end

/-- Entry-wise resolution of a dictionary is a map over its entries. -/
theorem replaceVariablesDict_eq_map (ctx : Ctx) :
    (kvs : List (Value × Value)) →
    replaceVariablesDict ctx kvs = kvs.map (fun kv => (kv.1, replaceVariables ctx kv.2))
  | [] => rfl
  | (k, v) :: t => by
      simp [replaceVariablesDict, replaceVariablesDict_eq_map ctx t]

/-- Element-wise resolution of a list is a map over its elements. -/
theorem replaceVariablesList_eq_map (ctx : Ctx) :
    (xs : List Value) → replaceVariablesList ctx xs = xs.map (replaceVariables ctx)
  | [] => rfl
  | v :: t => by
      simp [replaceVariablesList, replaceVariablesList_eq_map ctx t]

/-- Concrete environment used by the closed theorems below: a fixed clock,
an HTTP oracle answering 200 with a `null` body, and a host-exec oracle
answering `null`. -/
def env0 : Env :=
  { base_url := "http://localhost:8000", now := "T",
    http := fun _ _ _ => .ok (200, .null),
    execHost := fun _ _ _ => .ok .null }

/-- C10: a condition node whose config has no `conditionType` key evaluates
to true immediately — the default condition type is `always` — regardless
of any `operator`, `leftValue` and `rightValue` entries in the config. -/
theorem condition_missing_type_defaults_always (ctx : Ctx) (config : List (Value × Value))
    (h : cfgLookup config "conditionType" = none) :
    executeCondition ctx config = .ok true := by
  simp [executeCondition, cfgGetD, h, valueBeq]

/-- Witness for `condition_missing_type_defaults_always`: a config carrying
`operator`/`leftValue`/`rightValue` (which would evaluate to false) but no
`conditionType` key still evaluates to true. -/
theorem condition_missing_type_defaults_always_witness :
    cfgLookup [(.str "operator", .str "equals"), (.str "leftValue", .str "1"),
        (.str "rightValue", .str "2")] "conditionType" = none ∧
    executeCondition [] [(.str "operator", .str "equals"), (.str "leftValue", .str "1"),
        (.str "rightValue", .str "2")] = .ok true :=
  ⟨rfl, condition_missing_type_defaults_always [] _ rfl⟩

/-- C5: with a non-`always` condition type and operator `equals`, identical
resolved operands evaluate to true and distinct resolved string operands
evaluate to false; a condition whose type is `always` evaluates to true
regardless of the operands. -/
theorem condition_equals_and_always (ctx : Ctx) (config : List (Value × Value)) :
    (valueBeq (cfgGetD config "conditionType" (.str "always")) (.str "always") = true →
      executeCondition ctx config = .ok true) ∧
    (valueBeq (cfgGetD config "conditionType" (.str "always")) (.str "always") = false →
      cfgGetD config "operator" (.str "equals") = .str "equals" →
      (replaceVariables ctx (cfgGetD config "leftValue" .null) =
          replaceVariables ctx (cfgGetD config "rightValue" .null) →
        executeCondition ctx config = .ok true) ∧
      (∀ a b, replaceVariables ctx (cfgGetD config "leftValue" .null) = .str a →
        replaceVariables ctx (cfgGetD config "rightValue" .null) = .str b → a ≠ b →
        executeCondition ctx config = .ok false)) := by
  constructor
  · intro h
    simp [executeCondition, h]
  · intro hct hop
    constructor
    · intro heq
      simp [executeCondition, hct, hop, heq, valueBeq, valueBeq_refl]
    · intro a b ha hb hab
      simp [executeCondition, hct, hop, ha, hb, valueBeq]
      exact hab

/-- Witness for `condition_equals_and_always`: `always` with junk operands
is true; `equals` on identical strings is true; `equals` on distinct
strings is false. -/
theorem condition_equals_and_always_witness :
    executeCondition [] [(.str "conditionType", .str "always"),
        (.str "leftValue", .str "1"), (.str "rightValue", .str "2")] = .ok true ∧
    executeCondition [] [(.str "conditionType", .str "comparison"),
        (.str "operator", .str "equals"),
        (.str "leftValue", .str "x"), (.str "rightValue", .str "x")] = .ok true ∧
    executeCondition [] [(.str "conditionType", .str "comparison"),
        (.str "operator", .str "equals"),
        (.str "leftValue", .str "x"), (.str "rightValue", .str "y")] = .ok false :=
  ⟨(condition_equals_and_always [] [(.str "conditionType", .str "always"),
        (.str "leftValue", .str "1"), (.str "rightValue", .str "2")]).1 rfl,
   ((condition_equals_and_always [] [(.str "conditionType", .str "comparison"),
        (.str "operator", .str "equals"),
        (.str "leftValue", .str "x"), (.str "rightValue", .str "x")]).2 rfl rfl).1 rfl,
   ((condition_equals_and_always [] [(.str "conditionType", .str "comparison"),
        (.str "operator", .str "equals"),
        (.str "leftValue", .str "x"), (.str "rightValue", .str "y")]).2 rfl rfl).2
     "x" "y" rfl rfl (by decide)⟩

/-- C4: `_replace_variables` semantics. A string exactly of the bare
placeholder form is replaced by the dot-path context lookup of its
(stripped) inner path — the lookup walks nested dictionaries segment by
segment, yielding null on any missing segment or non-dictionary
intermediate; a string not of the bare form (in particular one that merely
contains a marker inside larger text) is returned unchanged, with no
partial interpolation; dictionaries and lists are resolved element-wise,
recursively; every other value is returned unchanged. -/
theorem replace_variables_resolution_spec (ctx : Ctx) :
    (∀ s p, bareForm s = some p →
      replaceVariables ctx (.str s) = getContextValue ctx (pyStrip p)) ∧
    (∀ s, bareForm s = none → replaceVariables ctx (.str s) = .str s) ∧
    (∀ kvs, replaceVariables ctx (.dict kvs) =
      .dict (kvs.map (fun kv => (kv.1, replaceVariables ctx kv.2)))) ∧
    (∀ xs, replaceVariables ctx (.list xs) = .list (xs.map (replaceVariables ctx))) ∧
    (replaceVariables ctx .null = .null ∧
     (∀ b, replaceVariables ctx (.bool b) = .bool b) ∧
     (∀ q, replaceVariables ctx (.num q) = .num q)) ∧
    (∀ path, getContextValue ctx path = walkPath (pySplitDot path) (.dict ctx)) ∧
    ((∀ v, walkPath [] v = v) ∧
     (∀ part rest kvs, walkPath (part :: rest) (.dict kvs) =
       walkPath rest (pyDictGet kvs (.str part))) ∧
     (∀ part rest v, (∀ kvs, v ≠ .dict kvs) → walkPath (part :: rest) v = .null)) := by
  refine ⟨?_, ?_, ?_, ?_, ⟨rfl, fun b => rfl, fun q => rfl⟩, fun path => rfl,
    ⟨fun v => rfl, fun part rest kvs => rfl, ?_⟩⟩
  · intro s p h
    simp [replaceVariables, h]
  · intro s h
    simp [replaceVariables, h]
  · intro kvs
    simp [replaceVariables, replaceVariablesDict_eq_map]
  · intro xs
    simp [replaceVariables, replaceVariablesList_eq_map]
  · intro part rest v hv
    cases v <;> first | rfl | exact absurd rfl (hv _)

/-- Witness for `replace_variables_resolution_spec` at concrete inputs:
a bare placeholder resolves through the dot path, an embedded marker is
left as literal text, lists and dictionaries resolve element-wise, and a
lookup across a missing segment yields null. -/
theorem replace_variables_resolution_spec_witness :
    replaceVariables [(.str "a", .dict [(.str "b", .num 2)])] (.str "\x7b\x7ba.b\x7d\x7d") =
      .num 2 ∧
    replaceVariables [] (.str "see \x7b\x7ba\x7d\x7d here") = .str "see \x7b\x7ba\x7d\x7d here" ∧
    replaceVariables [(.str "a", .num 1)] (.dict [(.str "k", .str "\x7b\x7ba\x7d\x7d")]) =
      .dict [(.str "k", .num 1)] ∧
    replaceVariables [(.str "a", .num 1)] (.list [.str "\x7b\x7ba\x7d\x7d", .num 3]) =
      .list [.num 1, .num 3] ∧
    getContextValue [(.str "a", .num 1)] "a.b.c" = .null :=
  ⟨((replace_variables_resolution_spec [(.str "a", .dict [(.str "b", .num 2)])]).1
      "\x7b\x7ba.b\x7d\x7d" "a.b" rfl).trans rfl,
   (replace_variables_resolution_spec []).2.1 "see \x7b\x7ba\x7d\x7d here" rfl,
   ((replace_variables_resolution_spec [(.str "a", .num 1)]).2.2.1
      [(.str "k", .str "\x7b\x7ba\x7d\x7d")]).trans rfl,
   ((replace_variables_resolution_spec [(.str "a", .num 1)]).2.2.2.1
      [.str "\x7b\x7ba\x7d\x7d", .num 3]).trans rfl,
   ((replace_variables_resolution_spec [(.str "a", .num 1)]).2.2.2.2.2.1 "a.b.c").trans rfl⟩

mutual

/-- A value is already resolved when no string anywhere inside it is of the
bare placeholder form (dictionary keys are never resolved, so they need no
constraint). -/
def fullyResolved : Value → Bool
  | .str s => (bareForm s).isNone
  | .list xs => fullyResolvedList xs
  | .dict kvs => fullyResolvedDict kvs
  | _ => true

/-- All elements of the list are already resolved. -/
def fullyResolvedList : List Value → Bool
  | [] => true
  | v :: t => fullyResolved v && fullyResolvedList t

/-- All entry values of the association list are already resolved. -/
def fullyResolvedDict : List (Value × Value) → Bool
  | [] => true
  | (_, v) :: t => fullyResolved v && fullyResolvedDict t

end

mutual

/-- Resolution is the identity on already-resolved values. -/
theorem replaceVariables_fixed (ctx : Ctx) :
    (v : Value) → fullyResolved v = true → replaceVariables ctx v = v
  | .null, _ => rfl
  | .bool _, _ => rfl
  | .num _, _ => rfl
  | .str s, h => by
      simp [fullyResolved, Option.isNone_iff_eq_none] at h
      simp [replaceVariables, h]
  | .list xs, h => by
      simp [fullyResolved] at h
      simp [replaceVariables, replaceVariablesList_fixed ctx xs h]
  | .dict kvs, h => by
      simp [fullyResolved] at h
      simp [replaceVariables, replaceVariablesDict_fixed ctx kvs h]

/-- List version of `replaceVariables_fixed`. -/
theorem replaceVariablesList_fixed (ctx : Ctx) :
    (xs : List Value) → fullyResolvedList xs = true → replaceVariablesList ctx xs = xs
  | [], _ => rfl
  | v :: t, h => by
      simp [fullyResolvedList] at h
      simp [replaceVariablesList, replaceVariables_fixed ctx v h.1,
        replaceVariablesList_fixed ctx t h.2]

/-- Dictionary version of `replaceVariables_fixed`. -/
theorem replaceVariablesDict_fixed (ctx : Ctx) :
    (kvs : List (Value × Value)) → fullyResolvedDict kvs = true →
      replaceVariablesDict ctx kvs = kvs
  | [], _ => rfl
  | (k, v) :: t, h => by
      simp [fullyResolvedDict] at h
      simp [replaceVariablesDict, replaceVariables_fixed ctx v h.1,
        replaceVariablesDict_fixed ctx t h.2]

end

/-- Execution context in which a stored node result is itself a bare
placeholder string, so that resolving it once yields text that a second
resolution would resolve again. -/
def c8ctx : Ctx := [(.str "a", .str "\x7b\x7bb\x7d\x7d"), (.str "b", .num 1)]

/-- C8 counterexample: resolution is not idempotent on every value — with a
context whose entry `a` stores the literal string `\x7b\x7bb\x7d\x7d`,
resolving the bare placeholder for `a` once yields that string, and
resolving a second time replaces it by the value of `b`. -/
theorem resolve_not_idempotent_counterexample :
    replaceVariables c8ctx (replaceVariables c8ctx (.str "\x7b\x7ba\x7d\x7d")) ≠
      replaceVariables c8ctx (.str "\x7b\x7ba\x7d\x7d") := by
  intro h
  have h1 : replaceVariables c8ctx (.str "\x7b\x7ba\x7d\x7d") = .str "\x7b\x7bb\x7d\x7d" := rfl
  have h2 : replaceVariables c8ctx (.str "\x7b\x7bb\x7d\x7d") = .num 1 := rfl
  rw [h1, h2] at h
  exact Value.noConfusion h

/-- C8 amended: resolution is idempotent on already-resolved values — on
every value containing no bare placeholder string it is the identity, and
hence resolving twice equals resolving once. -/
theorem resolve_idempotent_on_resolved (ctx : Ctx) (v : Value)
    (h : fullyResolved v = true) :
    replaceVariables ctx v = v ∧
    replaceVariables ctx (replaceVariables ctx v) = replaceVariables ctx v := by
  have h1 := replaceVariables_fixed ctx v h
  exact ⟨h1, by rw [h1, h1]⟩

/-- Witness for `resolve_idempotent_on_resolved`: a concrete already-resolved
value (containing an embedded, non-bare marker) is fixed by resolution in
the counterexample's own context. -/
theorem resolve_idempotent_on_resolved_witness :
    fullyResolved (.dict [(.str "k", .str "x \x7b\x7bb\x7d\x7d y"), (.str "l", .list [.num 3])]) =
      true ∧
    replaceVariables c8ctx
        (.dict [(.str "k", .str "x \x7b\x7bb\x7d\x7d y"), (.str "l", .list [.num 3])]) =
      .dict [(.str "k", .str "x \x7b\x7bb\x7d\x7d y"), (.str "l", .list [.num 3])] ∧
    replaceVariables c8ctx (replaceVariables c8ctx
        (.dict [(.str "k", .str "x \x7b\x7bb\x7d\x7d y"), (.str "l", .list [.num 3])])) =
      replaceVariables c8ctx
        (.dict [(.str "k", .str "x \x7b\x7bb\x7d\x7d y"), (.str "l", .list [.num 3])]) :=
  ⟨rfl,
   (resolve_idempotent_on_resolved c8ctx
     (.dict [(.str "k", .str "x \x7b\x7bb\x7d\x7d y"), (.str "l", .list [.num 3])]) rfl).1,
   (resolve_idempotent_on_resolved c8ctx
     (.dict [(.str "k", .str "x \x7b\x7bb\x7d\x7d y"), (.str "l", .list [.num 3])]) rfl).2⟩

theorem lookup_mapSet (m : List (String × String)) (k v : String) :
    (mapSet m k v).lookup k = some v := by
  induction m with
  | nil => simp [mapSet, List.lookup]
  | cons p t ih =>
      obtain ⟨k0, v0⟩ := p
      by_cases h : k0 = k
      · subst h
        simp [mapSet, List.lookup]
      · have hk1 : (k0 == k) = false := beq_eq_false_iff_ne.mpr h
        have hk2 : (k == k0) = false := beq_eq_false_iff_ne.mpr (Ne.symm h)
        simp [mapSet, hk1, List.lookup, hk2, ih]

theorem filter_addJobReplacing (jobs : List Job) (j : Job) :
    (addJobReplacing jobs j).filter (fun x => x.id == j.id) = [j] := by
  simp only [addJobReplacing, List.filter_append]
  have h1 : (jobs.filter (fun x => x.id != j.id)).filter (fun x => x.id == j.id) = [] := by
    rw [List.filter_filter]
    apply List.filter_eq_nil_iff.mpr
    intro a _
    cases h : a.id == j.id <;> simp [bne, h]
  rw [h1]
  simp

theorem any_addJobReplacing (jobs : List Job) (j : Job) :
    (addJobReplacing jobs j).any (fun x => x.id == j.id) = true := by
  simp [addJobReplacing, List.any_append]

theorem schedule_workflow_ok (st : WorkflowScheduler) (wid c m u d o w : String)
    (hc : pySplitWs c = [m, u, d, o, w]) :
    schedule_workflow st wid c =
      .ok ⟨addJobReplacing (unschedule_workflow st wid).jobs
             ⟨"workflow_" ++ wid, m, u, d, o, w, wid⟩,
           mapSet (unschedule_workflow st wid).scheduled_workflows wid ("workflow_" ++ wid)⟩ := by
  unfold schedule_workflow
  rw [hc]

theorem reschedule_leaves_single_job (st : WorkflowScheduler) (wid : String)
    (c1 c2 m1 u1 d1 o1 w1 m2 u2 d2 o2 w2 : String)
    (hc1 : pySplitWs c1 = [m1, u1, d1, o1, w1])
    (hc2 : pySplitWs c2 = [m2, u2, d2, o2, w2]) :
    ∃ st1 st2,
      schedule_workflow st wid c1 = .ok st1 ∧
      schedule_workflow st1 wid c2 = .ok st2 ∧
      st2.jobs.filter (fun j => j.id == "workflow_" ++ wid) =
        [⟨"workflow_" ++ wid, m2, u2, d2, o2, w2, wid⟩] ∧
      st2.scheduled_workflows.lookup wid = some ("workflow_" ++ wid) := by
  refine ⟨_, _, schedule_workflow_ok st wid c1 m1 u1 d1 o1 w1 hc1,
    schedule_workflow_ok _ wid c2 m2 u2 d2 o2 w2 hc2, ?_, ?_⟩
  · simpa using filter_addJobReplacing
      (unschedule_workflow ⟨addJobReplacing (unschedule_workflow st wid).jobs
          ⟨"workflow_" ++ wid, m1, u1, d1, o1, w1, wid⟩,
        mapSet (unschedule_workflow st wid).scheduled_workflows wid ("workflow_" ++ wid)⟩ wid).jobs
      ⟨"workflow_" ++ wid, m2, u2, d2, o2, w2, wid⟩
  · exact lookup_mapSet _ wid _

theorem reschedule_leaves_single_job_witness :
    ∃ st1 st2,
      schedule_workflow .fresh "w1" "0 9 * * *" = .ok st1 ∧
      schedule_workflow st1 "w1" "5 9 * * *" = .ok st2 ∧
      st2.jobs.filter (fun j => j.id == "workflow_" ++ "w1") =
        [⟨"workflow_" ++ "w1", "5", "9", "*", "*", "*", "w1"⟩] ∧
      st2.scheduled_workflows.lookup "w1" = some ("workflow_" ++ "w1") :=
  reschedule_leaves_single_job .fresh "w1" "0 9 * * *" "5 9 * * *"
    "0" "9" "*" "*" "*" "5" "9" "*" "*" "*" rfl rfl

theorem fallback_starts_from_first_node (env : Env) (fuel : Nat) (tt : String) (n0 : Node)
    (nodes : List Node) (edges : List Edge) (ctx0 ctx1 : Ctx) (effs : List Effect)
    (r : WorkflowResult)
    (hhead : nodes.head? = some n0)
    (hnotrig : ∀ n ∈ nodes, n.type ≠ "trigger")
    (hrun : executeWorkflowRun env fuel ctx0 nodes edges tt = some (r, ctx1, effs)) :
    r.logs.head? =
      some (logE env ("Starting workflow execution from node: " ++ n0.id) "info") := by
  cases nodes with
  | nil => simp at hhead
  | cons m rest =>
      have hm : m = n0 := by simpa using hhead
      subst hm
      have hfil : (m :: rest).filter (fun n => n.type == "trigger") = [] := by
        apply List.filter_eq_nil_iff.mpr
        intro a ha
        simpa using hnotrig a ha
      unfold executeWorkflowRun at hrun
      rw [hfil] at hrun
      simp only [List.isEmpty_nil, if_true, List.take, runTriggers] at hrun
      cases hres : (executeNodeChain env (m :: rest) edges fuel m ctx0).res with
      | ok v =>
          rw [hres] at hrun
          simp only [Option.some.injEq, Prod.mk.injEq] at hrun
          obtain ⟨hr, -, -⟩ := hrun
          subst hr
          simp
      | err e =>
          rw [hres] at hrun
          simp only [Option.some.injEq, Prod.mk.injEq] at hrun
          obtain ⟨hr, -, -⟩ := hrun
          subst hr
          simp
      | fuelOut =>
          rw [hres] at hrun
          simp at hrun

/-- Workflow with a non-empty node list and no trigger node, used by the
no-trigger-fallback theorems. -/
def c7nodes : List Node := [⟨"n1", "custom", []⟩]

/-- The full execution record the fallback run produces: only the generic
start, visit, and unknown-type entries. -/
def c7result : WorkflowResult :=
  { status := "completed",
    logs := [⟨"T", "Starting workflow execution from node: n1", "info"⟩,
             ⟨"T", "Executing node: n1 (type: custom)", "info"⟩,
             ⟨"T", "Unknown node type: custom", "warning"⟩],
    result := some .null, error := none }

/-- A log entry records the fallback when its message mentions it: it
contains the word `fallback` or speaks of a missing trigger. -/
def recordsFallback (e : LogEntry) : Bool :=
  strIn "fallback" e.message || strIn "Fallback" e.message ||
    strIn "no trigger" e.message || strIn "No trigger" e.message

/-- C7 counterexample: executing a workflow with a non-empty node list and
no trigger node does start from the first node, but the produced logs are
exactly the generic start/visit/unknown-kind entries — none of them records
the fallback. -/
theorem fallback_not_logged_counterexample :
    executeWorkflowRun env0 3 [] c7nodes [] "manual" =
      some (c7result, [(.str "n1", .null)], []) ∧
    c7result.logs.all (fun e => !recordsFallback e) = true ∧
    c7result.logs ≠ [] :=
  ⟨rfl, rfl, by simp [c7result]⟩

/-- Witness for `fallback_starts_from_first_node` at the concrete
no-trigger workflow: its first log entry is the generic start entry naming
the first node. -/
theorem fallback_starts_from_first_node_witness :
    c7result.logs.head? =
      some (logE env0 ("Starting workflow execution from node: " ++ "n1") "info") :=
  fallback_starts_from_first_node env0 3 "manual" ⟨"n1", "custom", []⟩ c7nodes []
    [] [(.str "n1", .null)] [] c7result rfl
    (by
      intro n hn
      simp only [c7nodes, List.mem_singleton] at hn
      subst hn
      decide)
    rfl

/-- Workflow for the first run of the cross-run experiment: a single
trigger node `n1`. -/
def c2nodes1 : List Node := [⟨"n1", "trigger", []⟩]

/-- Workflow for the second run: a single condition node comparing the
placeholder for the *other workflow's* node `n1` to `true`. -/
def c2nodes2 : List Node :=
  [⟨"c1", "condition",
    [(.str "conditionType", .str "comparison"), (.str "operator", .str "equals"),
     (.str "leftValue", .str "\x7b\x7bn1.triggered\x7d\x7d"), (.str "rightValue", .bool true)]⟩]

/-- C2 (defect exhibit): the executor retains `execution_context` across
`execute_workflow` calls. Running the trigger workflow first and then the
condition workflow on the same executor resolves
`\x7b\x7bn1.triggered\x7d\x7d` to the value the first run stored (condition
true), while the same condition workflow on a fresh executor resolves it to
null (condition false): the second run's variable resolution depends on the
first run's stored node results. -/
theorem cross_run_context_retained :
    (WorkflowExecutor.fresh.executeWorkflow env0 3 c2nodes1 [] "manual").map
        (fun p => (p.2.1.executeWorkflow env0 3 c2nodes2 [] "manual").map
          (fun q => q.1.result)) = some (some (some (.bool true))) ∧
    (WorkflowExecutor.fresh.executeWorkflow env0 3 c2nodes2 [] "manual").map
        (fun q => q.1.result) = some (some (.bool false)) :=
  ⟨rfl, rfl⟩

/-- C3 (defect exhibit): a transform node whose config carries a truthy
`code` entry hands the workflow-authored text (after the literal JS→Python
rewrites) to the host `exec` facility — the transform handler's effect
trace records the invocation. The legacy `set` shape, by contrast, reaches
no host-execution facility. -/
theorem transform_code_reaches_host_exec :
    (executeTransform env0 [(.str "code", .str "result = \x7b'x': 1\x7d")] []).effects =
      [.hostExec "result = \x7b'x': 1\x7d"] ∧
    (executeTransform env0 [(.str "transformType", .str "set"), (.str "variable", .str "v"),
        (.str "value", .num 1)] []).effects = [] :=
  ⟨rfl, rfl⟩

theorem c6_handler (config : List (Value × Value)) (ctx : Ctx)
    (hct : valueBeq (cfgGetD config "conditionType" (.str "always")) (.str "always") = false)
    (hop : cfgGetD config "operator" (.str "equals") = .str "greater_than" ∨
           cfgGetD config "operator" (.str "equals") = .str "less_than")
    (hpar : (∃ e, pyFloatE (replaceVariables ctx (cfgGetD config "leftValue" .null)) = .error e) ∨
            (∃ e, pyFloatE (replaceVariables ctx (cfgGetD config "rightValue" .null)) = .error e)) :
    ∃ e, executeCondition ctx config = .error e := by
  cases hl : pyFloatE (replaceVariables ctx (cfgGetD config "leftValue" .null)) with
  | error e =>
      refine ⟨e, ?_⟩
      cases hop with
      | inl h => simp [executeCondition, hct, h, valueBeq, hl]
      | inr h => simp [executeCondition, hct, h, valueBeq, hl]
  | ok q =>
      have hr : ∃ e, pyFloatE (replaceVariables ctx (cfgGetD config "rightValue" .null)) = .error e := by
        cases hpar with
        | inl h =>
            obtain ⟨e, he⟩ := h
            rw [hl] at he
            exact absurd he (by simp)
        | inr h => exact h
      obtain ⟨e, he⟩ := hr
      refine ⟨e, ?_⟩
      cases hop with
      | inl h => simp [executeCondition, hct, h, valueBeq, hl, he]
      | inr h => simp [executeCondition, hct, h, valueBeq, hl, he]

def c6nodes (config : List (Value × Value)) : List Node :=
  [⟨"t1", "trigger", []⟩, ⟨"c1", "condition", config⟩, ⟨"x1", "noop", []⟩]

def c6edges : List Edge := [⟨"t1", "c1", none⟩, ⟨"c1", "x1", none⟩]

def c6trig : Value := .dict [(.str "triggered", .bool true), (.str "timestamp", .str "T")]

def c6ctx : Ctx := [(.str "t1", c6trig)]

theorem c6_pipeline (config : List (Value × Value)) (e : String)
    (he : executeCondition c6ctx config = .error e) :
    executeWorkflowRun env0 3 [] (c6nodes config) c6edges "manual" =
      some ({ status := "failed",
              logs := [⟨"T", "Starting workflow execution from node: t1", "info"⟩,
                       ⟨"T", "Executing node: t1 (type: trigger)", "info"⟩,
                       ⟨"T", "Executing node: c1 (type: condition)", "info"⟩,
                       ⟨"T", "Error executing node c1: " ++ e, "error"⟩,
                       ⟨"T", "Workflow execution failed: " ++ e, "error"⟩],
              result := none, error := some e }, c6ctx, []) := by
  have hnow : env0.now = "T" := rfl
  have he1 : executeCondition [(.str "t1", c6trig)] config = .error e := he
  have h1 : executeNode env0 ⟨"c1", "condition", config⟩ [(.str "t1", c6trig)] =
      ⟨[(.str "t1", c6trig)], [⟨"T", "Error executing node c1: " ++ e, "error"⟩], [], .err e⟩ := by
    simp [executeNode, executeNodeInner, he1, logE, hnow]
  have h2 : executeNodeChain env0 (c6nodes config) c6edges 2 ⟨"c1", "condition", config⟩
        [(.str "t1", c6trig)] =
      ⟨[(.str "t1", c6trig)],
       [⟨"T", "Executing node: c1 (type: condition)", "info"⟩,
        ⟨"T", "Error executing node c1: " ++ e, "error"⟩], [], .err e⟩ := by
    simp [executeNodeChain, h1, logE, hnow]
  have h3a : executeNode env0 ⟨"t1", "trigger", []⟩ [] = ⟨[], [], [], .ok c6trig⟩ := by
    simp [executeNode, executeNodeInner, c6trig, hnow]
  have hfind : (c6nodes config).find? (fun n => n.id == "c1") =
      some ⟨"c1", "condition", config⟩ := by
    simp [c6nodes]
  have hout : c6edges.filter (fun ed => ed.source == "t1") = [(⟨"t1", "c1", none⟩ : Edge)] := by
    simp [c6edges]
  have h3 : executeNodeChain env0 (c6nodes config) c6edges 3 ⟨"t1", "trigger", []⟩ [] =
      ⟨[(.str "t1", c6trig)],
       [⟨"T", "Executing node: t1 (type: trigger)", "info"⟩,
        ⟨"T", "Executing node: c1 (type: condition)", "info"⟩,
        ⟨"T", "Error executing node c1: " ++ e, "error"⟩], [], .err e⟩ := by
    simp only [executeNodeChain, h3a, logE, hnow, pyDictSet, hout, chainEdges, hfind,
      evaluateEdgeCondition, pyTruthy, h1, h2]
    simp
  have hfil : (c6nodes config).filter (fun n => n.type == "trigger") =
      [⟨"t1", "trigger", []⟩] := by
    simp [c6nodes]
  have hc : c6ctx = [(.str "t1", c6trig)] := rfl
  rw [hc]
  simp only [executeWorkflowRun, hfil, runTriggers, h3, logE, hnow]
  simp

/-- C6: a condition node with a non-`always` condition type and operator
`greater_than` or `less_than` whose resolved operands cannot be parsed as
numbers raises a handler error (never a false result); embedded in the
trigger→condition→noop workflow `c6nodes`, that error aborts the branch
(the successor `x1` is never entered — the produced logs are exactly the
listed ones), is logged at `error` level, and marks the execution `failed`
with the error message attached. -/
theorem numeric_parse_failure_fails_execution (config : List (Value × Value))
    (hct : valueBeq (cfgGetD config "conditionType" (.str "always")) (.str "always") = false)
    (hop : cfgGetD config "operator" (.str "equals") = .str "greater_than" ∨
           cfgGetD config "operator" (.str "equals") = .str "less_than") :
    (∀ ctx : Ctx,
      ((∃ e, pyFloatE (replaceVariables ctx (cfgGetD config "leftValue" .null)) = .error e) ∨
       (∃ e, pyFloatE (replaceVariables ctx (cfgGetD config "rightValue" .null)) = .error e)) →
      ∃ e, executeCondition ctx config = .error e) ∧
    (((∃ e, pyFloatE (replaceVariables c6ctx (cfgGetD config "leftValue" .null)) = .error e) ∨
      (∃ e, pyFloatE (replaceVariables c6ctx (cfgGetD config "rightValue" .null)) = .error e)) →
      ∃ e, executeCondition c6ctx config = .error e ∧
        executeWorkflowRun env0 3 [] (c6nodes config) c6edges "manual" =
          some ({ status := "failed",
                  logs := [⟨"T", "Starting workflow execution from node: t1", "info"⟩,
                           ⟨"T", "Executing node: t1 (type: trigger)", "info"⟩,
                           ⟨"T", "Executing node: c1 (type: condition)", "info"⟩,
                           ⟨"T", "Error executing node c1: " ++ e, "error"⟩,
                           ⟨"T", "Workflow execution failed: " ++ e, "error"⟩],
                  result := none, error := some e }, c6ctx, [])) := by
  refine ⟨fun ctx hp => c6_handler config ctx hct hop hp, fun hp => ?_⟩
  obtain ⟨e, he⟩ := c6_handler config c6ctx hct hop hp
  exact ⟨e, he, c6_pipeline config e he⟩

/-- Condition config with unparseable operands used by the C6 witness. -/
def c6cfg : List (Value × Value) :=
  [(.str "conditionType", .str "comparison"), (.str "operator", .str "greater_than"),
   (.str "leftValue", .str "abc"), (.str "rightValue", .str "3")]

/-- Witness for `numeric_parse_failure_fails_execution` at the concrete
config comparing the unparseable string `abc` with `3`. -/
theorem numeric_parse_failure_fails_execution_witness :
    ∃ e, executeCondition c6ctx c6cfg = .error e ∧
      executeWorkflowRun env0 3 [] (c6nodes c6cfg) c6edges "manual" =
        some ({ status := "failed",
                logs := [⟨"T", "Starting workflow execution from node: t1", "info"⟩,
                         ⟨"T", "Executing node: t1 (type: trigger)", "info"⟩,
                         ⟨"T", "Executing node: c1 (type: condition)", "info"⟩,
                         ⟨"T", "Error executing node c1: " ++ e, "error"⟩,
                         ⟨"T", "Workflow execution failed: " ++ e, "error"⟩],
                result := none, error := some e }, c6ctx, []) :=
  (numeric_parse_failure_fails_execution c6cfg rfl (Or.inl rfl)).2
    (Or.inl ⟨"could not convert string to float", rfl⟩)

def cycNodes : List Node := [⟨"A", "trigger", []⟩, ⟨"B", "noop", []⟩]

def cycEdges : List Edge := [⟨"A", "B", none⟩, ⟨"B", "A", none⟩]

theorem cyc_chain_fuelOut : ∀ fuel : Nat,
    (∀ ctx, (executeNodeChain env0 cycNodes cycEdges fuel ⟨"A", "trigger", []⟩ ctx).res =
      .fuelOut) ∧
    (∀ ctx, (executeNodeChain env0 cycNodes cycEdges fuel ⟨"B", "noop", []⟩ ctx).res =
      .fuelOut) := by
  intro fuel
  induction fuel with
  | zero => exact ⟨fun ctx => rfl, fun ctx => rfl⟩
  | succ n ih =>
      have hfindB : cycNodes.find? (fun nd => nd.id == "B") = some ⟨"B", "noop", []⟩ := by
        simp [cycNodes]
      have hfindA : cycNodes.find? (fun nd => nd.id == "A") = some ⟨"A", "trigger", []⟩ := by
        simp [cycNodes]
      have houtA : cycEdges.filter (fun ed => ed.source == "A") = [(⟨"A", "B", none⟩ : Edge)] := by
        simp [cycEdges]
      have houtB : cycEdges.filter (fun ed => ed.source == "B") = [(⟨"B", "A", none⟩ : Edge)] := by
        simp [cycEdges]
      constructor
      · intro ctx
        simp only [executeNodeChain, executeNode, executeNodeInner, houtA, chainEdges,
          hfindB, evaluateEdgeCondition, pyTruthy]
        simp only [ih.2]
        simp
      · intro ctx
        simp only [executeNodeChain, executeNode, executeNodeInner, houtB, chainEdges,
          hfindA, evaluateEdgeCondition, pyTruthy]
        simp only [ih.1]
        simp

/-- C1 (defect exhibit): on the cyclic workflow A→B→A (edge conditions
absent, hence always passing) the executor's walk never terminates: for
every recursion budget, `execute_workflow` exhausts it — the step-indexed
model of the source's unbounded recursion — instead of returning a failed
execution with a cycle-detected error. The source tracks no visited set, so
no such error exists anywhere in it. -/
theorem cycle_walk_never_terminates (fuel : Nat) :
    WorkflowExecutor.fresh.executeWorkflow env0 fuel cycNodes cycEdges "manual" = none := by
  have h := (cyc_chain_fuelOut fuel).1 []
  have hfil : cycNodes.filter (fun n => n.type == "trigger") = [⟨"A", "trigger", []⟩] := by
    simp [cycNodes]
  simp only [WorkflowExecutor.executeWorkflow, WorkflowExecutor.fresh, executeWorkflowRun,
    hfil, runTriggers, h]
  simp
